import Mathlib

/-!
# Aircraft boarding simulation: a shallow embedding

This file embeds the core of the aircraft-boarding-simulation repository in
Lean 4 and proves (or refutes) the specified properties of the boarding-order
generators and of the discrete stepping loop.

Two source implementations are embedded:

* `src/boarding_simulation.py` — the `DiscreteSimulation` class: passenger
  records, the per-tick update of every passenger, the aisle occupancy map,
  the seat-interference delay, and the main `run_simulation` loop.
* `src/simulation.py` — the seat-order generation of
  `Simulation.generate_passengers` (the HYBRID branch), and the
  `Simulation.update_passengers` aisle stepping used by `Simulation.run`.

Python floats are modelled as rationals (`ℚ`); the mutable numpy grid and the
aisle list are modelled as functions updated pointwise; the `np.random.normal`
draws are modelled as an ambient stream `rng : Nat → ℚ` consumed two draws per
passenger, in program order.
-/

namespace AircraftBoarding

/-! ## Seat layout (boarding_simulation.py, `Aircraft` / `PassengerParameters`)

The source hardcodes the 3-3 seat layout `['A','B','C','D','E','F']`
(window-middle-aisle-aisle-middle-window) and the per-seat interference
constants `{'A': 5, 'B': 3, 'C': 0, 'D': 0, 'E': 3, 'F': 5}`. -/

def seat_layout : List Char := ['A', 'B', 'C', 'D', 'E', 'F']

/-- `PassengerParameters.seat_interference_time` as a total function
(the Python dict lookup; keys outside the layout are never used). -/
def seat_interference_time (c : Char) : ℚ :=
  if c = 'A' then 5
  else if c = 'B' then 3
  else if c = 'C' then 0
  else if c = 'D' then 0
  else if c = 'E' then 3
  else if c = 'F' then 5
  else 0

/-- `DiscreteSimulation.seat_to_grid_position`: index of the seat letter in
`seat_layout` (Python `list.index`). -/
def seat_to_grid_position (seat : Char) : Nat := seat_layout.indexOf seat

/-- `DiscreteSimulation.calculate_interference_delay`.  The grid is the seated
occupancy map (`grid[row-1, j] == 1` becomes `grid (row-1) j = true`); `spr`
is `aircraft.seats_per_row`.  For seats with index ≤ 2 the source sums the
interference constants of occupied seats with index `j < seat_index`; for the
others it sums over `j` in `range(seat_index+1, seats_per_row)`. -/
def calculate_interference_delay (spr : Nat) (grid : Nat → Nat → Bool)
    (row : Nat) (seat : Char) : ℚ :=
  let seat_index := seat_to_grid_position seat
  if seat_index ≤ 2 then
    ((List.range seat_index).map (fun j =>
      if grid (row - 1) j then seat_interference_time (seat_layout.getD j 'A') else 0)).sum
  else
    ((List.range' (seat_index + 1) (spr - (seat_index + 1))).map (fun j =>
      if grid (row - 1) j then seat_interference_time (seat_layout.getD j 'A') else 0)).sum

/-! ## Passenger records and the per-tick update (`DiscreteSimulation.run_simulation`) -/

/-- The `status` strings of the passenger dicts built in `run_simulation`:
`'queue'`, `'aisle'`, `'seating'`, `'seated'`. -/
inductive Status where
  | queue
  | aisle
  | seating
  | seated
deriving DecidableEq, Repr

/-- Position of a status in the forward chain
queue → aisle → seating → seated (QUEUED → IN_AISLE → STOWING → SEATED). -/
def statusRank : Status → Nat
  | .queue => 0
  | .aisle => 1
  | .seating => 2
  | .seated => 3

/-- One passenger dict of `run_simulation`'s `passenger_data`. -/
structure Passenger where
  id : Nat
  row : Nat
  seat : Char
  walking_speed : ℚ
  luggage_time : ℚ
  status : Status
  current_position : Nat
  time_to_next_action : ℚ
deriving DecidableEq, Repr

instance : Inhabited Passenger :=
  ⟨{ id := 0, row := 0, seat := 'A', walking_speed := 0, luggage_time := 0,
     status := .queue, current_position := 0, time_to_next_action := 0 }⟩

/-- A passenger occupies an aisle slot exactly while its status is `'aisle'`
or `'seating'` (a seating passenger vacates its slot only on being seated). -/
def inAisle (p : Passenger) : Prop := p.status = .aisle ∨ p.status = .seating

instance (p : Passenger) : Decidable (inAisle p) := by
  unfold inAisle; infer_instance

/-- The mutable simulation state shared by all passengers during one tick:
`self.aisle` (slot ↦ occupant id), `self.grid` (seated occupancy) and
`self.seated_passengers`. -/
structure Aux where
  aisle : Nat → Option Nat
  grid : Nat → Nat → Bool
  seated : Nat

/-- Point update of the aisle map (`self.aisle[k] = v`). -/
def setAisle (a : Nat → Option Nat) (k : Nat) (v : Option Nat) : Nat → Option Nat :=
  fun k2 => if k2 = k then v else a k2

/-- Point update of the seated grid (`self.grid[r, c] = 1`). -/
def setGrid (g : Nat → Nat → Bool) (r c : Nat) : Nat → Nat → Bool :=
  fun r2 c2 => if r2 = r ∧ c2 = c then true else g r2 c2

/-- The body of `run_simulation`'s `for passenger in passenger_data:` loop:
how one passenger (and the shared state) evolves in one tick, given the
time step `ts`. -/
def stepPassenger (spr : Nat) (ts : ℚ) (a : Aux) (p : Passenger) : Aux × Passenger :=
  match p.status with
  | .queue =>
    if a.aisle 0 = none then
      ({ a with aisle := setAisle a.aisle 0 (some p.id) },
       { p with status := .aisle, current_position := 0,
                time_to_next_action := 1 / p.walking_speed })
    else (a, p)
  | .aisle =>
    if p.time_to_next_action ≤ 0 then
      if p.current_position = p.row then
        let interference_delay := calculate_interference_delay spr a.grid p.row p.seat
        (a, { p with time_to_next_action := p.luggage_time + interference_delay,
                     status := .seating })
      else if p.current_position < p.row ∧ a.aisle (p.current_position + 1) = none then
        ({ a with aisle := setAisle (setAisle a.aisle p.current_position none)
                    (p.current_position + 1) (some p.id) },
         { p with current_position := p.current_position + 1,
                  time_to_next_action := 1 / p.walking_speed })
      else (a, p)
    else (a, { p with time_to_next_action := p.time_to_next_action - ts })
  | .seating =>
    if p.time_to_next_action ≤ 0 then
      ({ a with grid := setGrid a.grid (p.row - 1) (seat_to_grid_position p.seat),
                aisle := setAisle a.aisle p.current_position none,
                seated := a.seated + 1 },
       { p with status := .seated })
    else (a, { p with time_to_next_action := p.time_to_next_action - ts })
  | .seated => (a, p)

/-- The whole `for passenger in passenger_data:` loop: passengers are updated
in list order, each seeing the shared state left by the previous ones. -/
def updateAll (spr : Nat) (ts : ℚ) : Aux → List Passenger → Aux × List Passenger
  | a, [] => (a, [])
  | a, p :: ps =>
    let r := stepPassenger spr ts a p
    let rest := updateAll spr ts r.1 ps
    (rest.1, r.2 :: rest.2)

/-- Engine state across ticks: the passenger list, the shared maps, the clock
and the recorded `(time_elapsed, remaining)` history. -/
structure SimState where
  passengers : List Passenger
  aisle : Nat → Option Nat
  grid : Nat → Nat → Bool
  seated_passengers : Nat
  time_elapsed : ℚ
  passengers_history : List (ℚ × Nat)

/-- One iteration of `run_simulation`'s `while` loop: update every passenger,
record `(self.time_elapsed, len(passenger_data) - self.seated_passengers)`,
then advance the clock by the time step. -/
def tick (spr : Nat) (ts : ℚ) (st : SimState) : SimState :=
  let r := updateAll spr ts
    { aisle := st.aisle, grid := st.grid, seated := st.seated_passengers } st.passengers
  { passengers := r.2
    aisle := r.1.aisle
    grid := r.1.grid
    seated_passengers := r.1.seated
    time_elapsed := st.time_elapsed + ts
    passengers_history :=
      st.passengers_history ++ [(st.time_elapsed, r.2.length - r.1.seated)] }

/-- `while self.seated_passengers < len(passenger_data) and
self.time_elapsed < time_limit:` — fuel-indexed unfolding of the loop.
The fuel only bounds the number of iterations; the loop guard itself is
checked each round exactly as in the source. -/
def simLoop (spr : Nat) (ts limit : ℚ) : Nat → SimState → SimState
  | 0, st => st
  | Nat.succ fuel, st =>
    if st.seated_passengers < st.passengers.length ∧ st.time_elapsed < limit then
      simLoop spr ts limit fuel (tick spr ts st)
    else st

/-- One passenger dict as built at the top of `run_simulation`: the `i`-th
passenger draws its walking speed from sample `2*i` and its luggage time from
sample `2*i+1` of the normal-sample stream (two `np.random.normal` calls per
passenger, in program order), floored at `0.1` and `1` respectively. -/
def mkPassenger (rng : Nat → ℚ) (i : Nat) (rs : Nat × Char) : Passenger :=
  { id := i, row := rs.1, seat := rs.2,
    walking_speed := max (1/10) (rng (2 * i)),
    luggage_time := max 1 (rng (2 * i + 1)),
    status := .queue, current_position := 0, time_to_next_action := 0 }

/-- `passenger_data` for a boarding order (`for i, (row, seat) in
enumerate(boarding_order)`, rendered as a map over the index range). -/
def mkPassengers (order : List (Nat × Char)) (rng : Nat → ℚ) : List Passenger :=
  (List.range order.length).map (fun i => mkPassenger rng i (order.getD i (0, 'A')))

/-- The state set up by `reset()` plus the `passenger_data` construction. -/
def initState (order : List (Nat × Char)) (rng : Nat → ℚ) : SimState :=
  { passengers := mkPassengers order rng
    aisle := fun _ => none
    grid := fun _ _ => false
    seated_passengers := 0
    time_elapsed := 0
    passengers_history := [] }

/-- `DiscreteSimulation.run_simulation(boarding_order, time_limit, time_step)`.
Since the clock starts at 0 and advances by `time_step` once per iteration,
the guard `time_elapsed < time_limit` admits exactly `⌈time_limit/time_step⌉`
iterations (for a positive step), which we use as the fuel. -/
def run_simulation (spr : Nat) (order : List (Nat × Char)) (rng : Nat → ℚ)
    (time_limit time_step : ℚ) : SimState :=
  simLoop spr time_step time_limit ⌈time_limit / time_step⌉₊ (initState order rng)

/-- The state reached after `k` ticks of the stepping loop — every state the
run ever records is of this form. -/
def stateAt (spr : Nat) (ts : ℚ) (order : List (Nat × Char)) (rng : Nat → ℚ)
    (k : Nat) : SimState :=
  (tick spr ts)^[k] (initState order rng)

/-- A run is complete when every passenger is seated (the loop's first guard
has become false); a run abandoned by the time limit has `¬ completed`. -/
def completed (st : SimState) : Prop :=
  st.seated_passengers = st.passengers.length

instance (st : SimState) : Decidable (completed st) := by
  unfold completed; infer_instance

/-! ## Boarding-order generation (simulation.py, `Simulation.generate_passengers`)

Seats are `(row, seat)` pairs with `row ∈ [0, rows)` and
`seat ∈ [0, seats_per_row)`. -/

/-- `Aircraft.seat_types` of simulation.py as the numeric `SeatType.value`:
window = 0 (outermost columns), middle = 1 (next ones), aisle = 2 (rest). -/
def seat_type_val (spr : Nat) (seat : Nat) : Nat :=
  if seat = 0 ∨ seat = spr - 1 then 0
  else if seat = 1 ∨ seat = spr - 2 then 1
  else 2

/-- The seat list built at the top of `generate_passengers` (all seats in
row-major order) — the spec's `allSeats()`. -/
def allSeats (rows spr : Nat) : List (Nat × Nat) :=
  (List.range rows).foldr
    (fun row acc => ((List.range spr).map (fun seat => (row, seat))) ++ acc) []

/-- Stable insertion into a key-sorted list: the new element goes before every
element of ≥ key (so earlier elements keep priority on ties, as Python's
stable `list.sort` does). -/
def insertByKey (key : Nat × Nat → Nat) (x : Nat × Nat) :
    List (Nat × Nat) → List (Nat × Nat)
  | [] => [x]
  | y :: ys => if key y < key x then y :: insertByKey key x ys else x :: y :: ys

/-- Stable sort by key, modelling Python's `list.sort(key=...)`. -/
def sortByKey (key : Nat × Nat → Nat) : List (Nat × Nat) → List (Nat × Nat)
  | [] => []
  | x :: xs => insertByKey key x (sortByKey key xs)

/-- The `BoardingStrategy.HYBRID` branch of `generate_passengers`:
`zones = 4`, `rows_per_zone = rows // zones`; zone `z` collects the rows in
`range(rows - (z+1)*rows_per_zone, rows - z*rows_per_zone)` (each zone spans
exactly `rows_per_zone` rows), sorts them by seat type, and the zones are
concatenated rear-first.  Note no branch covers the front `rows % 4` rows. -/
def hybridSeats (rows spr : Nat) : List (Nat × Nat) :=
  (List.range 4).foldr
    (fun zone acc =>
      let rows_per_zone := rows / 4
      let start_row := rows - (zone + 1) * rows_per_zone
      let zone_seats :=
        (List.range' start_row rows_per_zone).foldr
          (fun row acc2 => ((List.range spr).map (fun seat => (row, seat))) ++ acc2) []
      sortByKey (fun rs => seat_type_val spr rs.2) zone_seats ++ acc) []

/-! Note on `foldr` renderings: Python's

`zoned_seats = []; for zone in ...: ...; zoned_seats.extend(zone_seats)`

appends the per-zone blocks in zone order, which is exactly the
concatenation `foldr (fun zone acc => block zone ++ acc) []` over
`List.range`; the same holds for the nested row/seat comprehensions. -/

/-! ## The aisle stepping of simulation.py (`Simulation.update_passengers`)

Passengers here are the `Passenger` objects of simulation.py: positions are
fractional (`ℚ`), rows are 0-based, and a passenger in the aisle list that has
reached its row stows via the dynamically-added `stowing_remaining` attribute
(modelled as an `Option`). -/

structure SPassenger where
  id : Nat
  row : Nat
  seat : Nat
  walking_speed : ℚ
  stowing_time : ℚ
  boarded : Bool
  position : ℚ
  stowing_remaining : Option ℚ
deriving DecidableEq, Repr

instance : Inhabited SPassenger :=
  ⟨{ id := 0, row := 0, seat := 0, walking_speed := 1, stowing_time := 5,
     boarded := false, position := -1, stowing_remaining := none }⟩

/-- The body of `update_passengers`' backwards `for i in range(len(aisle)-1,
-1, -1)` loop for one index `i`: the aisle passenger at `i` either progresses
its stowing (and is removed once seated), starts stowing, or moves forward by
`min(walking_speed, row - position)` when no other passenger blocks within one
walking-speed unit ahead (`other != passenger` is object identity, rendered by
the unique ids). -/
def procStow (ais : List SPassenger) (i : Nat) (p : SPassenger) : List SPassenger :=
  match p.stowing_remaining with
  | some t =>
    if t - 1 ≤ 0 then ais.eraseIdx i
    else ais.set i { p with stowing_remaining := some (t - 1) }
  | none => ais.set i { p with stowing_remaining := some p.stowing_time }

def procMove (ais : List SPassenger) (i : Nat) (p : SPassenger) : List SPassenger :=
  let can_move := ais.all (fun other =>
    ! (other.id ≠ p.id ∧ other.position > p.position ∧
       other.position - p.position ≤ p.walking_speed : Bool))
  if can_move then
    ais.set i
      { p with position := p.position + min p.walking_speed ((p.row : ℚ) - p.position) }
  else ais

def procIdx (ais : List SPassenger) (i : Nat) : List SPassenger :=
  match ais.get? i with
  | none => ais
  | some p =>
    if p.position = (p.row : ℚ) then procStow ais i p
    else procMove ais i p

/-- The backwards loop itself, from index `i` down to `0`. -/
def updFrom : Nat → List SPassenger → List SPassenger
  | 0, ais => procIdx ais 0
  | Nat.succ i, ais => updFrom i (procIdx ais (Nat.succ i))

/-- `if queue and (not aisle or aisle[-1].position > 2)`: entry is admitted
when the aisle is empty or its most recently entered passenger has walked
past position 2. -/
def aisleTailClear (ais : List SPassenger) : Bool :=
  match ais.getLast? with
  | none => true
  | some l => decide ((2 : ℚ) < l.position)

/-- `Simulation.update_passengers(queue, aisle)`: possibly admit the head of
the queue to the aisle (at position 0), then process the aisle from its last
index down to 0. -/
def update_passengers (qa : List SPassenger × List SPassenger) :
    List SPassenger × List SPassenger :=
  let admitted :=
    match qa.1 with
    | [] => qa
    | p :: rest =>
      if aisleTailClear qa.2 then (rest, qa.2 ++ [{ p with position := 0 }])
      else qa
  (admitted.1, updFrom (admitted.2.length - 1) admitted.2)

/-! ## Lemmas about one passenger step -/

/-- All pointwise facts about one passenger step that need no assumption on
the shared state: the id and target row never change, the status advances by
at most one place along queue → aisle → seating → seated and never goes back,
and the aisle position never passes the target row. -/
def stepRel (p q : Passenger) : Prop :=
  q.id = p.id ∧ q.row = p.row ∧
  statusRank p.status ≤ statusRank q.status ∧
  statusRank q.status ≤ statusRank p.status + 1 ∧
  (p.current_position ≤ p.row → q.current_position ≤ q.row)

lemma stepPassenger_rel (spr : Nat) (ts : ℚ) (a : Aux) (p : Passenger) :
    stepRel p (stepPassenger spr ts a p).2 := by
  obtain ⟨pid, prow, pseat, pws, plt, pstat, ppos, ptta⟩ := p
  cases pstat <;>
    simp only [stepPassenger, stepRel, statusRank] <;>
    (try split_ifs) <;>
    (simp_all; try omega)

lemma stepPassenger_seated_ge (spr : Nat) (ts : ℚ) (a : Aux) (p : Passenger) :
    a.seated ≤ (stepPassenger spr ts a p).1.seated := by
  obtain ⟨pid, prow, pseat, pws, plt, pstat, ppos, ptta⟩ := p
  cases pstat <;>
    simp only [stepPassenger] <;>
    (try split_ifs) <;> simp

lemma stepPassenger_seated_of_queue (spr : Nat) (ts : ℚ) (a : Aux) (p : Passenger)
    (h : p.status = .queue) :
    (stepPassenger spr ts a p).1.seated = a.seated := by
  obtain ⟨pid, prow, pseat, pws, plt, pstat, ppos, ptta⟩ := p
  change pstat = Status.queue at h
  subst h
  simp only [stepPassenger]
  split_ifs <;> rfl

/-- Shared-aisle facts about one passenger step, assuming the stepping
passenger owns its slot: after the step it still owns its (possibly new)
slot while it is in the aisle, and any slot whose content changed either
belonged to the passenger before the step or was empty before and holds the
passenger now. -/
lemma stepPassenger_aisle_spec (spr : Nat) (ts : ℚ) (a : Aux) (p : Passenger)
    (hp : inAisle p → a.aisle p.current_position = some p.id) :
    (inAisle (stepPassenger spr ts a p).2 →
      (stepPassenger spr ts a p).1.aisle (stepPassenger spr ts a p).2.current_position
        = some p.id) ∧
    (∀ s, (stepPassenger spr ts a p).1.aisle s = a.aisle s ∨
          a.aisle s = some p.id ∨
          (a.aisle s = none ∧ (stepPassenger spr ts a p).1.aisle s = some p.id)) := by
  obtain ⟨pid, prow, pseat, pws, plt, pstat, ppos, ptta⟩ := p
  cases pstat
  case queue =>
    simp only [stepPassenger]
    split_ifs with h0
    · refine ⟨fun _ => by simp [setAisle], fun s => ?_⟩
      by_cases hs : s = 0
      · subst hs
        exact Or.inr (Or.inr ⟨h0, by simp [setAisle]⟩)
      · exact Or.inl (by simp [setAisle, hs])
    · refine ⟨fun hIn => ?_, fun s => Or.inl rfl⟩
      simp [inAisle] at hIn
  case aisle =>
    simp only [stepPassenger]
    split_ifs with h1 h2 h3
    · exact ⟨fun _ => hp (Or.inl rfl), fun s => Or.inl rfl⟩
    · refine ⟨fun _ => by simp [setAisle], fun s => ?_⟩
      by_cases hs1 : s = ppos + 1
      · subst hs1
        exact Or.inr (Or.inr ⟨h3.2, by simp [setAisle]⟩)
      · by_cases hs2 : s = ppos
        · subst hs2
          exact Or.inr (Or.inl (hp (Or.inl rfl)))
        · exact Or.inl (by simp [setAisle, hs1, hs2])
    · exact ⟨fun _ => hp (Or.inl rfl), fun s => Or.inl rfl⟩
    · exact ⟨fun _ => hp (Or.inl rfl), fun s => Or.inl rfl⟩
  case seating =>
    simp only [stepPassenger]
    split_ifs with h1
    · refine ⟨fun hIn => ?_, fun s => ?_⟩
      · simp [inAisle] at hIn
      · by_cases hs : s = ppos
        · subst hs
          exact Or.inr (Or.inl (hp (Or.inr rfl)))
        · exact Or.inl (by simp [setAisle, hs])
    · exact ⟨fun _ => hp (Or.inr rfl), fun s => Or.inl rfl⟩
  case seated =>
    refine ⟨fun hIn => ?_, fun s => Or.inl rfl⟩
    simp [stepPassenger, inAisle] at hIn

/-! ## Lemmas about the per-tick passenger loop -/

lemma updateAll_rel (spr : Nat) (ts : ℚ) :
    ∀ (L : List Passenger) (a : Aux), List.Forall₂ stepRel L (updateAll spr ts a L).2
  | [], _ => List.Forall₂.nil
  | p :: ps, a => by
    simp only [updateAll]
    exact List.Forall₂.cons (stepPassenger_rel spr ts a p)
      (updateAll_rel spr ts ps (stepPassenger spr ts a p).1)

lemma updateAll_length (spr : Nat) (ts : ℚ) (L : List Passenger) (a : Aux) :
    (updateAll spr ts a L).2.length = L.length :=
  ((updateAll_rel spr ts L a).length_eq).symm

lemma updateAll_ids (spr : Nat) (ts : ℚ) :
    ∀ (L : List Passenger) (a : Aux),
      (updateAll spr ts a L).2.map Passenger.id = L.map Passenger.id
  | [], _ => rfl
  | p :: ps, a => by
    simp only [updateAll, List.map_cons]
    rw [updateAll_ids spr ts ps, (stepPassenger_rel spr ts a p).1]

lemma updateAll_seated_ge (spr : Nat) (ts : ℚ) :
    ∀ (L : List Passenger) (a : Aux), a.seated ≤ (updateAll spr ts a L).1.seated
  | [], _ => le_refl _
  | p :: ps, a => by
    simp only [updateAll]
    exact le_trans (stepPassenger_seated_ge spr ts a p)
      (updateAll_seated_ge spr ts ps (stepPassenger spr ts a p).1)

lemma updateAll_seated_of_queue (spr : Nat) (ts : ℚ) :
    ∀ (L : List Passenger) (a : Aux), (∀ p ∈ L, p.status = .queue) →
      (updateAll spr ts a L).1.seated = a.seated
  | [], _, _ => rfl
  | p :: ps, a, h => by
    simp only [updateAll]
    rw [updateAll_seated_of_queue spr ts ps (stepPassenger spr ts a p).1
      (fun q hq => h q (List.mem_cons_of_mem p hq))]
    exact stepPassenger_seated_of_queue spr ts a p (h p (List.mem_cons_self p ps))

/-- The slot-ownership invariant carried through the whole passenger loop:
if every in-aisle passenger owns its slot and ids are distinct, then after the
loop every in-aisle passenger still owns its slot, and any slot holding an id
from outside the list is untouched. -/
lemma updateAll_own_frame (spr : Nat) (ts : ℚ) :
    ∀ (L : List Passenger) (a : Aux),
      (∀ p ∈ L, inAisle p → a.aisle p.current_position = some p.id) →
      (L.map Passenger.id).Nodup →
      (∀ p ∈ (updateAll spr ts a L).2, inAisle p →
        (updateAll spr ts a L).1.aisle p.current_position = some p.id) ∧
      (∀ s x, a.aisle s = some x → x ∉ L.map Passenger.id →
        (updateAll spr ts a L).1.aisle s = some x)
  | [], a, _, _ => by
    refine ⟨fun p hp => absurd hp (List.not_mem_nil p), fun s x hx _ => hx⟩
  | p :: ps, a, hOwn, hNodup => by
    have hpOwn : inAisle p → a.aisle p.current_position = some p.id :=
      hOwn p (List.mem_cons_self p ps)
    obtain ⟨hStepOwn, hStepFrame⟩ := stepPassenger_aisle_spec spr ts a p hpOwn
    set a1 := (stepPassenger spr ts a p).1 with ha1
    set p1 := (stepPassenger spr ts a p).2 with hp1
    have hid1 : p1.id = p.id := (stepPassenger_rel spr ts a p).1
    simp only [List.map_cons, List.nodup_cons] at hNodup
    obtain ⟨hpNotIn, hNodup2⟩ := hNodup
    -- ids of distinct list entries differ from p's
    have hOther : ∀ q ∈ ps, q.id ≠ p.id := by
      intro q hq hEq
      exact hpNotIn (hEq ▸ List.mem_map_of_mem Passenger.id hq)
    -- the tail still satisfies the ownership hypothesis on the updated state
    have hOwn1 : ∀ q ∈ ps, inAisle q → a1.aisle q.current_position = some q.id := by
      intro q hq hqIn
      have hqOwn := hOwn q (List.mem_cons_of_mem p hq) hqIn
      have hf := hStepFrame q.current_position
      rcases hf with hSame | hWasP | ⟨hNone, _⟩
      · rw [hSame]; exact hqOwn
      · exact absurd (Option.some.inj (hqOwn.symm.trans hWasP)) (hOther q hq)
      · rw [hqOwn] at hNone; exact absurd hNone (Option.some_ne_none q.id)
    obtain ⟨hRecOwn, hRecFrame⟩ :=
      updateAll_own_frame spr ts ps a1 hOwn1 hNodup2
    constructor
    · intro q hq hqIn
      simp only [updateAll] at hq ⊢
      rcases List.mem_cons.mp hq with hq1 | hq2
      · subst hq1
        have h1 : a1.aisle p1.current_position = some p.id := hStepOwn hqIn
        have h2 := hRecFrame p1.current_position p.id h1 hpNotIn
        rw [hid1]
        exact h2
      · exact hRecOwn q hq2 hqIn
    · intro s x hx hxNot
      simp only [List.map_cons, List.mem_cons] at hxNot
      push_neg at hxNot
      obtain ⟨hxp, hxps⟩ := hxNot
      have hx1 : a1.aisle s = some x := by
        have hf := hStepFrame s
        rcases hf with hSame | hWasP | ⟨hNone, _⟩
        · rw [hSame]; exact hx
        · exact absurd (Option.some.inj (hx.symm.trans hWasP)) hxp
        · rw [hx] at hNone; exact absurd hNone (Option.some_ne_none x)
      simp only [updateAll]
      exact hRecFrame s x hx1 hxps

/-! ## Tick-level and loop-level lemmas -/

lemma forall₂_getD {R : Passenger → Passenger → Prop} :
    ∀ {l1 l2 : List Passenger}, List.Forall₂ R l1 l2 → ∀ i, i < l1.length →
      R (l1.getD i default) (l2.getD i default)
  | _, _, List.Forall₂.cons h _, 0, _ => h
  | _, _, List.Forall₂.cons _ hs, Nat.succ i, hi =>
    forall₂_getD hs i (Nat.lt_of_succ_lt_succ hi)

lemma forall₂_mem_right {R : Passenger → Passenger → Prop} :
    ∀ {l1 l2 : List Passenger}, List.Forall₂ R l1 l2 → ∀ b ∈ l2, ∃ a ∈ l1, R a b := by
  intro l1 l2 h
  induction h with
  | nil => intro b hb; exact absurd hb (List.not_mem_nil b)
  | cons hR _ ih =>
    intro b hb
    rcases List.mem_cons.mp hb with hb1 | hb2
    · exact ⟨_, List.mem_cons_self _ _, hb1 ▸ hR⟩
    · obtain ⟨a, ha, haR⟩ := ih b hb2
      exact ⟨a, List.mem_cons_of_mem _ ha, haR⟩

lemma tick_rel (spr : Nat) (ts : ℚ) (st : SimState) :
    List.Forall₂ stepRel st.passengers (tick spr ts st).passengers :=
  updateAll_rel spr ts st.passengers _

lemma tick_length (spr : Nat) (ts : ℚ) (st : SimState) :
    (tick spr ts st).passengers.length = st.passengers.length :=
  updateAll_length spr ts st.passengers _

lemma tick_ids (spr : Nat) (ts : ℚ) (st : SimState) :
    (tick spr ts st).passengers.map Passenger.id = st.passengers.map Passenger.id :=
  updateAll_ids spr ts st.passengers _

lemma tick_seated_ge (spr : Nat) (ts : ℚ) (st : SimState) :
    st.seated_passengers ≤ (tick spr ts st).seated_passengers :=
  updateAll_seated_ge spr ts st.passengers
    { aisle := st.aisle, grid := st.grid, seated := st.seated_passengers }

lemma tick_history (spr : Nat) (ts : ℚ) (st : SimState) :
    (tick spr ts st).passengers_history =
      st.passengers_history ++
        [(st.time_elapsed,
          (tick spr ts st).passengers.length - (tick spr ts st).seated_passengers)] :=
  rfl

/-- The shape invariant behind the single-occupancy guarantee: ids are
pairwise distinct and every in-aisle passenger owns its recorded slot. -/
def AisleInv (st : SimState) : Prop :=
  (st.passengers.map Passenger.id).Nodup ∧
  ∀ p ∈ st.passengers, inAisle p → st.aisle p.current_position = some p.id

lemma tick_aisleInv (spr : Nat) (ts : ℚ) (st : SimState) (h : AisleInv st) :
    AisleInv (tick spr ts st) := by
  obtain ⟨hNodup, hOwn⟩ := h
  obtain ⟨hOwn2, _⟩ := updateAll_own_frame spr ts st.passengers
    { aisle := st.aisle, grid := st.grid, seated := st.seated_passengers } hOwn hNodup
  exact ⟨(tick_ids spr ts st) ▸ hNodup, hOwn2⟩

/-- Any property preserved by `tick` and holding at entry holds at the state
the while loop returns (whatever the loop guard decides at each round). -/
lemma simLoop_inv (spr : Nat) (ts limit : ℚ) (P : SimState → Prop)
    (hP : ∀ st, P st → P (tick spr ts st)) :
    ∀ (fuel : Nat) (st : SimState), P st → P (simLoop spr ts limit fuel st)
  | 0, st, h => h
  | Nat.succ fuel, st, h => by
    simp only [simLoop]
    split_ifs with hg
    · exact simLoop_inv spr ts limit P hP fuel (tick spr ts st) (hP st h)
    · exact h

lemma stateAt_succ (spr : Nat) (ts : ℚ) (order : List (Nat × Char)) (rng : Nat → ℚ)
    (k : Nat) :
    stateAt spr ts order rng (k + 1) = tick spr ts (stateAt spr ts order rng k) :=
  Function.iterate_succ_apply' (tick spr ts) k (initState order rng)

lemma stateAt_inv (spr : Nat) (ts : ℚ) (order : List (Nat × Char)) (rng : Nat → ℚ)
    (P : SimState → Prop) (hP : ∀ st, P st → P (tick spr ts st))
    (h0 : P (initState order rng)) : ∀ k, P (stateAt spr ts order rng k)
  | 0 => h0
  | Nat.succ k => by
    rw [stateAt_succ]
    exact hP _ (stateAt_inv spr ts order rng P hP h0 k)

/-! ## Facts about the initial state -/

lemma mkPassengers_length (order : List (Nat × Char)) (rng : Nat → ℚ) :
    (mkPassengers order rng).length = order.length := by
  simp [mkPassengers]

lemma mkPassengers_ids (order : List (Nat × Char)) (rng : Nat → ℚ) :
    (mkPassengers order rng).map Passenger.id = List.range order.length := by
  simp only [mkPassengers, List.map_map]
  have h : (Passenger.id ∘ fun i => mkPassenger rng i (order.getD i (0, 'A'))) =
      fun i : Nat => i := rfl
  rw [h]
  exact List.map_id' _

lemma mkPassengers_queue (order : List (Nat × Char)) (rng : Nat → ℚ) :
    ∀ p ∈ mkPassengers order rng, p.status = .queue := by
  intro p hp
  obtain ⟨i, _, rfl⟩ := List.mem_map.mp hp
  rfl

lemma initState_aisleInv (order : List (Nat × Char)) (rng : Nat → ℚ) :
    AisleInv (initState order rng) := by
  constructor
  · rw [show (initState order rng).passengers = mkPassengers order rng from rfl,
      mkPassengers_ids]
    exact List.nodup_range _
  · intro p hp hIn
    rcases hIn with h | h <;>
      rw [mkPassengers_queue order rng p hp] at h <;> cases h

/-! ## The recorded time series -/

/-- Invariant tying the recorded history to the seated counter: remaining
counts are non-increasing, every recorded count is at least the current
remaining count, the last record (if any) equals the current remaining count,
and nobody is seated before the first record. -/
def HistoryInv (st : SimState) : Prop :=
  (st.passengers_history.map Prod.snd).Chain' (fun a b => b ≤ a) ∧
  (∀ r ∈ st.passengers_history.map Prod.snd,
    st.passengers.length - st.seated_passengers ≤ r) ∧
  (st.passengers_history = [] ∨
    (st.passengers_history.map Prod.snd).getLast? =
      some (st.passengers.length - st.seated_passengers)) ∧
  (st.passengers_history = [] → st.seated_passengers = 0)

lemma tick_historyInv (spr : Nat) (ts : ℚ) (st : SimState) (h : HistoryInv st) :
    HistoryInv (tick spr ts st) := by
  obtain ⟨hChain, hGe, _, _⟩ := h
  have hlen : (tick spr ts st).passengers.length = st.passengers.length :=
    tick_length spr ts st
  have hseat : st.seated_passengers ≤ (tick spr ts st).seated_passengers :=
    tick_seated_ge spr ts st
  have hrem : (tick spr ts st).passengers.length - (tick spr ts st).seated_passengers ≤
      st.passengers.length - st.seated_passengers := by
    rw [hlen]
    exact Nat.sub_le_sub_left hseat _
  have hhist := tick_history spr ts st
  refine ⟨?_, ?_, ?_, ?_⟩
  · rw [hhist, List.map_append]
    rw [List.chain'_append]
    refine ⟨hChain, List.chain'_singleton _, ?_⟩
    intro x hx y hy
    simp only [List.map_cons, List.map_nil, List.head?_cons, Option.mem_def,
      Option.some.injEq] at hy
    subst hy
    exact le_trans hrem (hGe x (List.mem_of_mem_getLast? hx))
  · intro r hr
    rw [hhist, List.map_append] at hr
    rcases List.mem_append.mp hr with hr1 | hr2
    · exact le_trans hrem (hGe r hr1)
    · simp only [List.map_cons, List.map_nil, List.mem_singleton] at hr2
      subst hr2
      exact le_refl _
  · right
    rw [hhist, List.map_append]
    simp
  · intro hEmpty
    rw [hhist] at hEmpty
    exact absurd hEmpty (by simp)

lemma initState_historyInv (order : List (Nat × Char)) (rng : Nat → ℚ) :
    HistoryInv (initState order rng) := by
  refine ⟨List.chain'_nil, ?_, Or.inl rfl, fun _ => rfl⟩
  intro r hr
  exact absurd hr (List.not_mem_nil r)

/-! ## One-tick facts for the timeout scenario -/

/-- With `0 < limit ≤ step` the guard `time_elapsed < time_limit` admits
exactly one iteration: `⌈limit/step⌉ = 1`. -/
lemma ceil_div_eq_one (limit step : ℚ) (h2 : 0 < limit) (h3 : limit ≤ step) :
    ⌈limit / step⌉₊ = 1 := by
  have hs : 0 < step := lt_of_lt_of_le h2 h3
  refine le_antisymm ?_ ?_
  · rw [Nat.ceil_le]
    rw [Nat.cast_one, div_le_one hs]
    exact h3
  · exact Nat.one_le_iff_ne_zero.mpr
      (Nat.pos_iff_ne_zero.mp (Nat.ceil_pos.mpr (div_pos h2 hs)))

/-- During the very first tick nobody can be seated: every passenger starts
queued, and a queued passenger at most enters the aisle. -/
lemma tick_init_seated (spr : Nat) (ts : ℚ) (order : List (Nat × Char)) (rng : Nat → ℚ) :
    (tick spr ts (initState order rng)).seated_passengers = 0 :=
  updateAll_seated_of_queue spr ts (mkPassengers order rng) _
    (mkPassengers_queue order rng)

/-! ## Position bounds in simulation.py (`update_passengers`) -/

lemma procIdx_pos_le (ais : List SPassenger) (i : Nat)
    (h : ∀ p ∈ ais, p.position ≤ (p.row : ℚ)) :
    ∀ q ∈ procIdx ais i, q.position ≤ (q.row : ℚ) := by
  intro q hq
  cases hget : ais.get? i with
  | none =>
    unfold procIdx at hq
    rw [hget] at hq
    exact h q hq
  | some p =>
    have hpMem : p ∈ ais := List.get?_mem hget
    have hpLe : p.position ≤ (p.row : ℚ) := h p hpMem
    have hq2 : q ∈ if p.position = (p.row : ℚ) then procStow ais i p
        else procMove ais i p := by
      unfold procIdx at hq
      rw [hget] at hq
      exact hq
    split_ifs at hq2 with hAt
    · unfold procStow at hq2
      cases hrem : p.stowing_remaining with
      | some t =>
        simp only [hrem] at hq2
        split_ifs at hq2 with hDone
        · exact h q ((List.eraseIdx_sublist ais i).subset hq2)
        · rcases List.mem_or_eq_of_mem_set hq2 with hq3 | hq4
          · exact h q hq3
          · subst hq4; exact hpLe
      | none =>
        simp only [hrem] at hq2
        rcases List.mem_or_eq_of_mem_set hq2 with hq3 | hq4
        · exact h q hq3
        · subst hq4; exact hpLe
    · simp only [procMove] at hq2
      split_ifs at hq2 with hMove
      · rcases List.mem_or_eq_of_mem_set hq2 with hq3 | hq4
        · exact h q hq3
        · subst hq4
          have hmin : min p.walking_speed ((p.row : ℚ) - p.position) ≤
              (p.row : ℚ) - p.position := min_le_right _ _
          simp only []
          linarith
      · exact h q hq2

lemma updFrom_pos_le :
    ∀ (i : Nat) (ais : List SPassenger),
      (∀ p ∈ ais, p.position ≤ (p.row : ℚ)) →
      ∀ q ∈ updFrom i ais, q.position ≤ (q.row : ℚ)
  | 0, ais, h => procIdx_pos_le ais 0 h
  | Nat.succ i, ais, h =>
    updFrom_pos_le i (procIdx ais (Nat.succ i)) (procIdx_pos_le ais (Nat.succ i) h)

lemma update_passengers_pos_le (qa : List SPassenger × List SPassenger)
    (h : ∀ p ∈ qa.2, p.position ≤ (p.row : ℚ)) :
    ∀ q ∈ (update_passengers qa).2, q.position ≤ (q.row : ℚ) := by
  unfold update_passengers
  cases hq1 : qa.1 with
  | nil =>
    exact updFrom_pos_le _ qa.2 h
  | cons p rest =>
    split_ifs with hClear
    · refine updFrom_pos_le _ _ ?_
      intro q hq
      rcases List.mem_append.mp hq with hq2 | hq3
      · exact h q hq2
      · rw [List.mem_singleton] at hq3
        subst hq3
        exact Nat.cast_nonneg _
    · exact updFrom_pos_le _ qa.2 h

/-! # Claim theorems -/

/-- C1 (code-bug evidence).  The claim says every strategy on every layout
with positive rows and seats-per-row generates a permutation of all seats.
The HYBRID branch of `Simulation.generate_passengers` (simulation.py) covers
only the rear `4 * (rows // 4)` rows, so for `rows = 1` it generates no seats
at all, and for `rows = 6` it generates 24 of the 36 seats and omits every
seat of the two front rows, e.g. `(0, 0)`. -/
theorem hybrid_generate_drops_front_rows :
    (allSeats 1 6).length = 6 ∧ hybridSeats 1 6 = [] ∧
    (allSeats 6 6).length = 36 ∧ (hybridSeats 6 6).length = 24 ∧
    (0, 0) ∈ allSeats 6 6 ∧ (0, 0) ∉ hybridSeats 6 6 := by
  decide

/-- Row-1 occupancy grids used to exercise the interference model:
seats B and C occupied. -/
def gridRow1BC : Nat → Nat → Bool := fun r c => r == 0 && (c == 1 || c == 2)

/-- Row-1 occupancy: seats A and B occupied. -/
def gridRow1AB : Nat → Nat → Bool := fun r c => r == 0 && (c == 0 || c == 1)

/-- Row-1 occupancy: seat A occupied. -/
def gridRow1A : Nat → Nat → Bool := fun r c => r == 0 && c == 0

/-- C4 (code-bug evidence).  The claim (and the source's own comments on
`seat_interference_time`) say a WINDOW passenger is delayed by each seated
MIDDLE/AISLE occupant on its side, a MIDDLE passenger by a seated AISLE
occupant, and an AISLE passenger not at all.  The code scans the wrong side
of the target seat (`range(seat_index)` for the left section and
`range(seat_index+1, seats_per_row)` for the right one, i.e. the seats
between the target and the window): a window passenger ('A') blocked by both
seated neighbours B and C gets delay 0, an aisle passenger ('C') with A and B
seated gets delay 5+3 = 8, and window seats always get delay 0. -/
theorem interference_delay_side_inverted :
    calculate_interference_delay 6 gridRow1BC 1 'A' = 0 ∧
    calculate_interference_delay 6 gridRow1AB 1 'C' = 8 ∧
    (∀ (g : Nat → Nat → Bool) (row : Nat),
      calculate_interference_delay 6 g row 'A' = 0 ∧
      calculate_interference_delay 6 g row 'F' = 0) := by
  refine ⟨by with_unfolding_all decide, by with_unfolding_all decide, ?_⟩
  intro g row
  constructor <;> rfl

/-- C5 (code-bug evidence).  The claim orders total service times
AISLE ≤ MIDDLE ≤ WINDOW for a fixed set of seated occupants and fixed stow
sample.  In the code the order is reversed: with only seat 1A occupied, the
WINDOW passenger to 1F has total service time `stow + 0`, strictly less than
the MIDDLE passenger to 1B with `stow + 5`. -/
theorem service_time_not_seat_type_monotone :
    calculate_interference_delay 6 gridRow1A 1 'F' = 0 ∧
    calculate_interference_delay 6 gridRow1A 1 'B' = 5 ∧
    (∀ stow : ℚ,
      stow + calculate_interference_delay 6 gridRow1A 1 'F' <
      stow + calculate_interference_delay 6 gridRow1A 1 'B') := by
  refine ⟨by with_unfolding_all decide, by with_unfolding_all decide, ?_⟩
  intro stow
  have h1 : calculate_interference_delay 6 gridRow1A 1 'F' = 0 := by
    with_unfolding_all decide
  have h2 : calculate_interference_delay 6 gridRow1A 1 'B' = 5 := by
    with_unfolding_all decide
  rw [h1, h2]
  linarith

/-- C7.  Determinism: the run is a pure function of the boarding order, the
configuration and the normal-sample stream, and it consumes only the first
`2 * n` samples (two per passenger, drawn before the stepping loop, which
itself performs no randomness).  Two runs whose streams agree on those
samples produce identical time series. -/
theorem run_deterministic_in_samples (spr : Nat) (order : List (Nat × Char))
    (r1 r2 : Nat → ℚ) (limit step : ℚ)
    (h : ∀ i, i < 2 * order.length → r1 i = r2 i) :
    (run_simulation spr order r1 limit step).passengers_history =
    (run_simulation spr order r2 limit step).passengers_history := by
  have hmk : mkPassengers order r1 = mkPassengers order r2 := by
    unfold mkPassengers
    apply List.map_congr_left
    intro i hi
    have hi2 : i < order.length := List.mem_range.mp hi
    unfold mkPassenger
    rw [h (2 * i) (by omega), h (2 * i + 1) (by omega)]
  have hinit : initState order r1 = initState order r2 := by
    unfold initState
    rw [hmk]
  unfold run_simulation
  rw [hinit]

/-- C7 witness: two streams that differ from sample 2 onwards but agree on
the two samples a one-passenger order consumes give identical series. -/
theorem run_deterministic_in_samples_witness :
    (∀ i, i < 2 * ([((1 : Nat), 'A')]).length →
      (fun _ : Nat => (1 : ℚ)) i = (fun j : Nat => if j < 2 then (1 : ℚ) else 2) i) ∧
    (run_simulation 6 [((1 : Nat), 'A')] (fun _ => 1) 10 1).passengers_history =
    (run_simulation 6 [((1 : Nat), 'A')] (fun j => if j < 2 then 1 else 2) 10 1).passengers_history :=
  ⟨by with_unfolding_all decide,
   run_deterministic_in_samples 6 [((1 : Nat), 'A')] _ _ 10 1
     (by with_unfolding_all decide)⟩

/-- C8.  The aisle-advancement contract of the stepping loop: an in-aisle
passenger whose waiting time has elapsed and who is strictly before its
target row advances by exactly one row-slot exactly when the slot immediately
ahead is unoccupied, and is left entirely unchanged when that slot is
occupied. -/
theorem aisle_advance_iff_next_slot_free (spr : Nat) (ts : ℚ) (a : Aux)
    (p : Passenger) (hs : p.status = .aisle) (ht : p.time_to_next_action ≤ 0)
    (hlt : p.current_position < p.row) :
    ((stepPassenger spr ts a p).2.current_position = p.current_position + 1 ↔
      a.aisle (p.current_position + 1) = none) ∧
    (a.aisle (p.current_position + 1) ≠ none → (stepPassenger spr ts a p).2 = p) := by
  obtain ⟨pid, prow, pseat, pws, plt, pstat, ppos, ptta⟩ := p
  change pstat = Status.aisle at hs
  change ptta ≤ 0 at ht
  change ppos < prow at hlt
  subst hs
  simp only [stepPassenger]
  rw [if_pos ht, if_neg (Nat.ne_of_lt hlt)]
  by_cases hfree : a.aisle (ppos + 1) = none
  · rw [if_pos ⟨hlt, hfree⟩]
    exact ⟨Iff.intro (fun _ => hfree) (fun _ => rfl),
           fun hocc => absurd hfree hocc⟩
  · rw [if_neg (fun hand => hfree hand.2)]
    exact ⟨Iff.intro
            (fun hEq => absurd hEq (Nat.ne_of_lt (Nat.lt_succ_self ppos)))
            (fun hn => absurd hn hfree),
           fun _ => rfl⟩

/-- C8 witness: a free aisle ahead of a passenger two rows short of its
target makes the step advance it by exactly one slot. -/
theorem aisle_advance_iff_next_slot_free_witness :
    (( { id := 0, row := 2, seat := 'A', walking_speed := 1, luggage_time := 1,
         status := .aisle, current_position := 0, time_to_next_action := 0 } :
        Passenger).status = .aisle ∧
     ( { id := 0, row := 2, seat := 'A', walking_speed := 1, luggage_time := 1,
         status := .aisle, current_position := 0, time_to_next_action := 0 } :
        Passenger).time_to_next_action ≤ 0) ∧
    ((stepPassenger 6 1 { aisle := fun _ => none, grid := fun _ _ => false, seated := 0 }
        { id := 0, row := 2, seat := 'A', walking_speed := 1, luggage_time := 1,
          status := .aisle, current_position := 0, time_to_next_action := 0 }).2.current_position
        = 0 + 1 ↔
      (fun _ : Nat => (none : Option Nat)) (0 + 1) = none) :=
  ⟨⟨rfl, by with_unfolding_all decide⟩,
   (aisle_advance_iff_next_slot_free 6 1
      { aisle := fun _ => none, grid := fun _ _ => false, seated := 0 }
      { id := 0, row := 2, seat := 'A', walking_speed := 1, luggage_time := 1,
        status := .aisle, current_position := 0, time_to_next_action := 0 }
      rfl (by with_unfolding_all decide) (by decide)).1⟩

lemma stateAt_length (spr : Nat) (ts : ℚ) (order : List (Nat × Char))
    (rng : Nat → ℚ) (k : Nat) :
    (stateAt spr ts order rng k).passengers.length = order.length :=
  stateAt_inv spr ts order rng (fun st => st.passengers.length = order.length)
    (fun st h => (tick_length spr ts st).trans h) (mkPassengers_length order rng) k

lemma stateAt_stepRel (spr : Nat) (ts : ℚ) (order : List (Nat × Char))
    (rng : Nat → ℚ) (k i : Nat) (hi : i < order.length) :
    stepRel ((stateAt spr ts order rng k).passengers.getD i default)
      ((stateAt spr ts order rng (k + 1)).passengers.getD i default) := by
  rw [stateAt_succ]
  exact forall₂_getD (tick_rel spr ts _) i
    (by rw [stateAt_length]; exact hi)

/-- C2.  At every recorded tick of a run, at most one passenger occupies any
aisle row-slot: two passengers at distinct boarding-order indices that are
both in the aisle (walking or stowing) never report the same aisle
position. -/
theorem aisle_slot_single_occupancy (spr : Nat) (ts : ℚ)
    (order : List (Nat × Char)) (rng : Nat → ℚ) (k i j : Nat)
    (hi : i < (stateAt spr ts order rng k).passengers.length)
    (hj : j < (stateAt spr ts order rng k).passengers.length) (hij : i ≠ j)
    (hInI : inAisle ((stateAt spr ts order rng k).passengers.getD i default))
    (hInJ : inAisle ((stateAt spr ts order rng k).passengers.getD j default)) :
    ((stateAt spr ts order rng k).passengers.getD i default).current_position ≠
    ((stateAt spr ts order rng k).passengers.getD j default).current_position := by
  obtain ⟨hNodup, hOwn⟩ :=
    stateAt_inv spr ts order rng AisleInv (fun st h => tick_aisleInv spr ts st h)
      (initState_aisleInv order rng) k
  intro hEq
  set st := stateAt spr ts order rng k with hst
  have hp : st.passengers.getD i default = st.passengers.get ⟨i, hi⟩ :=
    List.getD_eq_getElem st.passengers default hi
  have hq : st.passengers.getD j default = st.passengers.get ⟨j, hj⟩ :=
    List.getD_eq_getElem st.passengers default hj
  have h1 : st.aisle (st.passengers.getD i default).current_position =
      some (st.passengers.getD i default).id :=
    hOwn _ (hp ▸ List.get_mem st.passengers _ _) hInI
  have h2 : st.aisle (st.passengers.getD j default).current_position =
      some (st.passengers.getD j default).id :=
    hOwn _ (hq ▸ List.get_mem st.passengers _ _) hInJ
  rw [hEq] at h1
  have hid : (st.passengers.getD i default).id = (st.passengers.getD j default).id :=
    Option.some.inj (h1.symm.trans h2)
  have hi2 : i < (st.passengers.map Passenger.id).length := by
    rw [List.length_map]; exact hi
  have hj2 : j < (st.passengers.map Passenger.id).length := by
    rw [List.length_map]; exact hj
  have hgi : (st.passengers.map Passenger.id).get ⟨i, hi2⟩ =
      (st.passengers.map Passenger.id).get ⟨j, hj2⟩ := by
    rw [List.get_eq_getElem, List.get_eq_getElem]
    simp only [List.getElem_map]
    rw [← List.getD_eq_getElem st.passengers default hi,
        ← List.getD_eq_getElem st.passengers default hj]
    exact hid
  have hfin := hNodup.get_inj_iff.mp hgi
  exact hij (congrArg Fin.val hfin)

/-- C2 witness: with two passengers bound for row 2, after three ticks the
first is at aisle slot 1 and the second has entered slot 0; the theorem
yields that their positions differ. -/
theorem aisle_slot_single_occupancy_witness :
    (0 : Nat) ≠ 1 ∧
    inAisle ((stateAt 6 1 [((2 : Nat), 'A'), ((2 : Nat), 'B')]
      (fun _ => 1) 3).passengers.getD 0 default) ∧
    inAisle ((stateAt 6 1 [((2 : Nat), 'A'), ((2 : Nat), 'B')]
      (fun _ => 1) 3).passengers.getD 1 default) ∧
    ((stateAt 6 1 [((2 : Nat), 'A'), ((2 : Nat), 'B')]
      (fun _ => 1) 3).passengers.getD 0 default).current_position ≠
    ((stateAt 6 1 [((2 : Nat), 'A'), ((2 : Nat), 'B')]
      (fun _ => 1) 3).passengers.getD 1 default).current_position :=
  ⟨by decide, by with_unfolding_all decide, by with_unfolding_all decide,
   aisle_slot_single_occupancy 6 1 [((2 : Nat), 'A'), ((2 : Nat), 'B')]
     (fun _ => 1) 3 0 1
     (by with_unfolding_all decide) (by with_unfolding_all decide) (by decide)
     (by with_unfolding_all decide) (by with_unfolding_all decide)⟩

/-- C3.  For every run that completes (every passenger seated while the loop
was still running), the remaining-passenger counts recorded in the time
series are non-increasing in time, and the final recorded entry is exactly
`0`. -/
theorem remaining_nonincreasing_final_zero (spr : Nat) (order : List (Nat × Char))
    (rng : Nat → ℚ) (limit step : ℚ) (hn : 0 < order.length)
    (hc : completed (run_simulation spr order rng limit step)) :
    ((run_simulation spr order rng limit step).passengers_history.map Prod.snd).Chain'
      (fun a b => b ≤ a) ∧
    (run_simulation spr order rng limit step).passengers_history ≠ [] ∧
    ((run_simulation spr order rng limit step).passengers_history.map Prod.snd).getLast?
      = some 0 := by
  have hInv : HistoryInv (run_simulation spr order rng limit step) := by
    unfold run_simulation
    exact simLoop_inv spr step limit HistoryInv
      (fun st h => tick_historyInv spr step st h) _ _
      (initState_historyInv order rng)
  obtain ⟨hChain, hGe, hLast, hEmpty0⟩ := hInv
  have hlen : (run_simulation spr order rng limit step).passengers.length =
      order.length := by
    unfold run_simulation
    exact simLoop_inv spr step limit
      (fun st => st.passengers.length = order.length)
      (fun st h => (tick_length spr step st).trans h) _ _
      (mkPassengers_length order rng)
  have hne : (run_simulation spr order rng limit step).passengers_history ≠ [] := by
    intro hE
    have h0 := hEmpty0 hE
    unfold completed at hc
    rw [h0, hlen] at hc
    omega
  refine ⟨hChain, hne, ?_⟩
  rcases hLast with hE | hL
  · exact absurd hE hne
  · rw [hL]
    unfold completed at hc
    rw [hc, Nat.sub_self]

/-- C3 witness: a single passenger bound for row 1 is seated within a
10-second limit; its series is non-increasing and ends at 0. -/
theorem remaining_nonincreasing_final_zero_witness :
    0 < ([((1 : Nat), 'A')]).length ∧
    completed (run_simulation 6 [((1 : Nat), 'A')] (fun _ => 1) 10 1) ∧
    ((run_simulation 6 [((1 : Nat), 'A')] (fun _ => 1) 10 1).passengers_history.map
      Prod.snd).getLast? = some 0 :=
  ⟨by decide, by with_unfolding_all decide,
   (remaining_nonincreasing_final_zero 6 [((1 : Nat), 'A')] (fun _ => 1) 10 1
     (by decide) (by with_unfolding_all decide)).2.2⟩

/-- `simLoop` with one unit of fuel is a single guarded iteration. -/
lemma simLoop_one (spr : Nat) (ts limit : ℚ) (st : SimState) :
    simLoop spr ts limit 1 st =
      if st.seated_passengers < st.passengers.length ∧ st.time_elapsed < limit then
        tick spr ts st
      else st := rfl

/-- C6.  When the time limit expires before anything can happen (one tick or
less, which is below the time any passenger needs to be seated), the run
still returns a well-formed incomplete result: not completed, with a non-empty
time series whose final remaining count is the full passenger count (the
claim allows `n` or `n − 1`). -/
theorem timeout_returns_incomplete_result (spr : Nat) (order : List (Nat × Char))
    (rng : Nat → ℚ) (limit step : ℚ) (hn : 0 < order.length)
    (h2 : 0 < limit) (h3 : limit ≤ step) :
    ¬ completed (run_simulation spr order rng limit step) ∧
    (run_simulation spr order rng limit step).passengers_history ≠ [] ∧
    (((run_simulation spr order rng limit step).passengers_history.map Prod.snd).getLast?
        = some order.length ∨
     ((run_simulation spr order rng limit step).passengers_history.map Prod.snd).getLast?
        = some (order.length - 1)) := by
  have hrun : run_simulation spr order rng limit step =
      tick spr step (initState order rng) := by
    unfold run_simulation
    rw [ceil_div_eq_one limit step h2 h3, simLoop_one]
    rw [if_pos]
    constructor
    · show 0 < (mkPassengers order rng).length
      rw [mkPassengers_length]
      exact hn
    · exact h2
  have hseat : (run_simulation spr order rng limit step).seated_passengers = 0 := by
    rw [hrun]
    exact tick_init_seated spr step order rng
  have hlen : (run_simulation spr order rng limit step).passengers.length =
      order.length := by
    rw [hrun, tick_length]
    exact mkPassengers_length order rng
  refine ⟨?_, ?_, Or.inl ?_⟩
  · intro hcomp
    unfold completed at hcomp
    rw [hseat, hlen] at hcomp
    omega
  · rw [hrun, tick_history]
    simp
  · rw [hrun, tick_history]
    have e1 : (initState order rng).passengers_history = ([] : List (ℚ × Nat)) := rfl
    rw [e1, List.nil_append]
    have e2 : (tick spr step (initState order rng)).passengers.length = order.length := by
      rw [tick_length]
      exact mkPassengers_length order rng
    rw [e2, tick_init_seated spr step order rng, Nat.sub_zero]
    simp

/-- C6 witness: a one-passenger run with `limit = step = 1` times out after
one recorded tick, is not completed, and its series ends at remaining = 1. -/
theorem timeout_returns_incomplete_result_witness :
    ¬ completed (run_simulation 6 [((1 : Nat), 'A')] (fun _ => 1) 1 1) ∧
    (run_simulation 6 [((1 : Nat), 'A')] (fun _ => 1) 1 1).passengers_history ≠ [] :=
  ⟨(timeout_returns_incomplete_result 6 [((1 : Nat), 'A')] (fun _ => 1) 1 1
      (by decide) (by with_unfolding_all decide) (by with_unfolding_all decide)).1,
   (timeout_returns_incomplete_result 6 [((1 : Nat), 'A')] (fun _ => 1) 1 1
      (by decide) (by with_unfolding_all decide) (by with_unfolding_all decide)).2.1⟩

/-- C9.  Phase transitions are monotone and skip-free: between consecutive
recorded ticks a passenger's phase (queue → aisle → seating/stowing → seated)
advances by at most one place and never goes back, so a passenger observed
stowing at time `t` is never queued or walking at any later time. -/
theorem phase_transitions_monotone (spr : Nat) (ts : ℚ)
    (order : List (Nat × Char)) (rng : Nat → ℚ) (i : Nat)
    (hi : i < order.length) :
    (∀ k,
      statusRank ((stateAt spr ts order rng k).passengers.getD i default).status ≤
        statusRank ((stateAt spr ts order rng (k + 1)).passengers.getD i default).status ∧
      statusRank ((stateAt spr ts order rng (k + 1)).passengers.getD i default).status ≤
        statusRank ((stateAt spr ts order rng k).passengers.getD i default).status + 1) ∧
    (∀ k k2, k ≤ k2 →
      statusRank ((stateAt spr ts order rng k).passengers.getD i default).status ≤
        statusRank ((stateAt spr ts order rng k2).passengers.getD i default).status) := by
  constructor
  · intro k
    obtain ⟨-, -, h1, h4, -⟩ := stateAt_stepRel spr ts order rng k i hi
    exact ⟨h1, h4⟩
  · intro k k2 hk
    induction k2, hk using Nat.le_induction with
    | base => exact le_refl _
    | succ m hm ih =>
      obtain ⟨-, -, h1, -, -⟩ := stateAt_stepRel spr ts order rng m i hi
      exact le_trans ih h1

/-- C9 witness: the single passenger of a one-passenger order has entered
the aisle by tick 1 and its phase rank never decreases up to tick 5. -/
theorem phase_transitions_monotone_witness :
    0 < ([((1 : Nat), 'A')]).length ∧ (1 : Nat) ≤ 5 ∧
    statusRank ((stateAt 6 1 [((1 : Nat), 'A')] (fun _ => 1) 1).passengers.getD 0
        default).status ≤
      statusRank ((stateAt 6 1 [((1 : Nat), 'A')] (fun _ => 1) 5).passengers.getD 0
        default).status :=
  ⟨by decide, by decide,
   (phase_transitions_monotone 6 1 [((1 : Nat), 'A')] (fun _ => 1) 0
      (by decide)).2 1 5 (by decide)⟩

/-- C10.  No overshoot, in both simulator implementations: in
`DiscreteSimulation.run_simulation` every passenger's aisle position stays at
most its target row at every tick, and a passenger exactly at its row does
not move; in `Simulation.update_passengers` every aisle passenger's position
stays at most its target row at every step. -/
theorem aisle_position_never_exceeds_target :
    (∀ (spr : Nat) (ts : ℚ) (order : List (Nat × Char)) (rng : Nat → ℚ) (k : Nat),
      ∀ p ∈ (stateAt spr ts order rng k).passengers, p.current_position ≤ p.row) ∧
    (∀ (spr : Nat) (ts : ℚ) (a : Aux) (p : Passenger), p.status = .aisle →
      p.current_position = p.row →
      (stepPassenger spr ts a p).2.current_position = p.current_position) ∧
    (∀ (q0 : List SPassenger) (k : Nat),
      ∀ p ∈ (update_passengers^[k] (q0, [])).2, p.position ≤ (p.row : ℚ)) := by
  refine ⟨?_, ?_, ?_⟩
  · intro spr ts order rng k
    refine stateAt_inv spr ts order rng
      (fun st => ∀ p ∈ st.passengers, p.current_position ≤ p.row) ?_ ?_ k
    · intro st h q hq
      obtain ⟨p, hp, hrel⟩ := forall₂_mem_right (tick_rel spr ts st) q hq
      exact hrel.2.2.2.2 (h p hp)
    · intro p hp
      obtain ⟨i, -, rfl⟩ := List.mem_map.mp hp
      exact Nat.zero_le _
  · intro spr ts a p hs hEq
    obtain ⟨pid, prow, pseat, pws, plt, pstat, ppos, ptta⟩ := p
    change pstat = Status.aisle at hs
    change ppos = prow at hEq
    subst hs
    simp only [stepPassenger]
    by_cases h1 : ptta ≤ 0
    · rw [if_pos h1, if_pos hEq]
    · rw [if_neg h1]
  · intro q0 k
    induction k with
    | zero =>
      intro p hp
      exact absurd hp (List.not_mem_nil p)
    | succ n ih =>
      rw [Function.iterate_succ_apply']
      exact update_passengers_pos_le _ ih

/-- C10 witness: concrete instances of all three parts — a walking passenger
after two ticks, a passenger standing at its row, and the simulation.py
stepping after two steps. -/
theorem aisle_position_never_exceeds_target_witness :
    (((stateAt 6 1 [((2 : Nat), 'A')] (fun _ => 1) 2).passengers.getD 0
        default).current_position ≤
      ((stateAt 6 1 [((2 : Nat), 'A')] (fun _ => 1) 2).passengers.getD 0
        default).row) ∧
    ((stepPassenger 6 1 { aisle := fun _ => none, grid := fun _ _ => false, seated := 0 }
        { id := 0, row := 1, seat := 'A', walking_speed := 1, luggage_time := 1,
          status := .aisle, current_position := 1, time_to_next_action := 0 }).2.current_position
      = 1) ∧
    (((update_passengers^[2]
        ([{ id := 0, row := 1, seat := 0, walking_speed := 1, stowing_time := 5,
            boarded := false, position := -1, stowing_remaining := none }], [])).2.getD 0
        default).position ≤
      (((update_passengers^[2]
        ([{ id := 0, row := 1, seat := 0, walking_speed := 1, stowing_time := 5,
            boarded := false, position := -1, stowing_remaining := none }], [])).2.getD 0
        default).row : ℚ)) :=
  ⟨aisle_position_never_exceeds_target.1 6 1 [((2 : Nat), 'A')] (fun _ => 1) 2 _
     (by with_unfolding_all decide),
   aisle_position_never_exceeds_target.2.1 6 1
     { aisle := fun _ => none, grid := fun _ _ => false, seated := 0 }
     { id := 0, row := 1, seat := 'A', walking_speed := 1, luggage_time := 1,
       status := .aisle, current_position := 1, time_to_next_action := 0 } rfl rfl,
   aisle_position_never_exceeds_target.2.2
     [{ id := 0, row := 1, seat := 0, walking_speed := 1, stowing_time := 5,
        boarded := false, position := -1, stowing_remaining := none }] 2 _
     (by with_unfolding_all decide)⟩

end AircraftBoarding
